import Mathlib

/-!
Verification of the `nanboxing` Go package (`boxing.go`).

A `Box` is a 64-bit IEEE-754 double whose bit pattern is manipulated
directly through `unsafe.Pointer` reinterpretation.  We embed a `Box`
as its raw 64-bit pattern, a natural number below `2^64`; every
operation of the package is a pure function on that pattern, translated
bit for bit from the source.  `math.IsNaN` is modelled at the bit level:
a pattern is NaN exactly when its 11 exponent bits are all ones and its
52 mantissa bits are not all zero.
-/

namespace Nanboxing

/-- Tag constants from `boxing.go`. -/
def TagNumber : Nat := 0x1

/-- Tag for string boxes (unexported in the source). -/
def tagString : Nat := 0x2

/-- Tag for bool boxes. -/
def TagBool : Nat := 0x3

/-- Tag for array boxes. -/
def TagArray : Nat := 0x4

/-- Tag for object boxes. -/
def TagObject : Nat := 0x5

/-- Tag for the null box. -/
def TagNull : Nat := 0xF

/-- Mask selecting the 4 tag bits after the shift. -/
def TagMask : Nat := 0xF

/-- Quiet-NaN mask: exponent all ones plus the quiet bit (bit 51). -/
def NaNMask : Nat := 0x7FF8000000000000

/-- Mask selecting the 47 payload bits. -/
def PayloadMask : Nat := 0x00007FFFFFFFFFFF

/-- Tag field position. -/
def TagShift : Nat := 47

/-- A Box is the raw 64-bit pattern of the Go `Box` (a `float64`). -/
abbrev Box := Nat

/-- Bit-level `math.IsNaN`: exponent bits 52..62 all ones and a nonzero
52-bit mantissa. -/
def float64IsNaN (x : Nat) : Bool :=
  ((x >>> 52) &&& 0x7FF == 0x7FF) && (x &&& 0xFFFFFFFFFFFFF != 0)

/-- `func (x *Box) Tag() Tag`. -/
def Tag (x : Box) : Nat := (x >>> TagShift) &&& TagMask

/-- `func (x *Box) Payload() uint64`. -/
def Payload (x : Box) : Nat := x &&& PayloadMask

/-- `func (x *Box) SetTag(t Tag)`: the Go shift `uint64(t) << 47` wraps
modulo `2^64`. -/
def SetTag (x : Box) (t : Nat) : Box :=
  NaNMask ||| ((t <<< TagShift) % 2 ^ 64) ||| (Payload x &&& PayloadMask)

/-- `func (x *Box) SetPayload(u uint64)`. -/
def SetPayload (x : Box) (u : Nat) : Box :=
  NaNMask ||| (Tag x <<< TagShift) ||| (u &&& PayloadMask)

/-- `func NewFloat(f float64) Box`: identity reinterpretation of the
input's bit pattern. -/
def NewFloat (f : Nat) : Box := f

/-- `func (x *Box) ToFloat() float64`: identity on the bit pattern. -/
def ToFloat (x : Box) : Nat := x

/-- `func (x *Box) IsFloat64() bool` is `!math.IsNaN(float64(*x))`. -/
def IsFloat64 (x : Box) : Bool := !float64IsNaN x

/-- The two's-complement 32-bit pattern of an int32, as produced by the
Go reinterpretation `*(*uint32)(unsafe.Pointer(&n))`. -/
def int32bits (n : Int) : Nat := (n % 2 ^ 32).toNat

/-- The Go conversion `int32(u)` of a `uint64`: truncate to the low 32
bits and read them as two's complement. -/
def toInt32 (u : Nat) : Int :=
  if u % 2 ^ 32 < 2 ^ 31 then ((u % 2 ^ 32 : Nat) : Int)
  else ((u % 2 ^ 32 : Nat) : Int) - 2 ^ 32

/-- `func NewNumber(n int32) Box`. -/
def NewNumber (n : Int) : Box :=
  NaNMask ||| (TagNumber <<< TagShift) ||| (int32bits n &&& PayloadMask)

/-- `func (x *Box) ToNumber() int32` is `int32(x.Payload())`. -/
def ToNumber (x : Box) : Int := toInt32 (Payload x)

/-- `func (x *Box) IsNumber() bool`. -/
def IsNumber (x : Box) : Bool := !IsFloat64 x && (Tag x == TagNumber)

/-- `func NewString(s string) Box`: the source stores
`uintptr(unsafe.Pointer(&s))`; the address is a parameter here. -/
def NewString (addr : Nat) : Box :=
  NaNMask ||| (tagString <<< TagShift) ||| (addr &&& PayloadMask)

/-- `func (x *Box) IsString() bool`. -/
def IsString (x : Box) : Bool := !IsFloat64 x && (Tag x == tagString)

/-- `func NewBool(b bool) Box`: the byte of a Go `bool` is 1 for true
and 0 for false. -/
def NewBool (b : Bool) : Box :=
  NaNMask ||| (TagBool <<< TagShift) ||| ((if b then 1 else 0) &&& PayloadMask)

/-- `func (x *Box) ToBool() bool` is `!(0 == x.Payload())`. -/
def ToBool (x : Box) : Bool := !(0 == Payload x)

/-- `func (x *Box) IsBool() bool`. -/
def IsBool (x : Box) : Bool := !IsFloat64 x && (Tag x == TagBool)

/-- `func NewArray(a Array) Box`: the source stores
`uintptr(unsafe.Pointer(&a))`; the address is a parameter here. -/
def NewArray (addr : Nat) : Box :=
  NaNMask ||| (TagArray <<< TagShift) ||| (addr &&& PayloadMask)

/-- `func (x *Box) ToArray() Array` dereferences the payload as an
address; the heap is modelled as a partial map from addresses to
stored arrays (`Array []Box` in the source). -/
def ToArray (heap : Nat → Option (List Box)) (x : Box) : Option (List Box) :=
  heap (Payload x)

/-- `func (x *Box) IsArray() bool`. -/
def IsArray (x : Box) : Bool := !IsFloat64 x && (Tag x == TagArray)

/-- `func NewObject(o Object) Box`: the source stores
`uintptr(unsafe.Pointer(&o))`; the address is a parameter here. -/
def NewObject (addr : Nat) : Box :=
  NaNMask ||| (TagObject <<< TagShift) ||| (addr &&& PayloadMask)

/-- `func (x *Box) ToObject() Object` dereferences the payload as an
address; the heap is modelled as a partial map from addresses to
stored objects (`Object map[string]Box` in the source, modelled as an
association list). -/
def ToObject (heap : Nat → Option (List (String × Box))) (x : Box) :
    Option (List (String × Box)) :=
  heap (Payload x)

/-- `func (x *Box) IsObject() bool`. -/
def IsObject (x : Box) : Bool := !IsFloat64 x && (Tag x == TagObject)

/-- `func NewNull() Box`. -/
def NewNull : Box :=
  NaNMask ||| (TagNull <<< TagShift) ||| (0 &&& PayloadMask)

/-- `func (x *Box) IsNull() bool`. -/
def IsNull (x : Box) : Bool := !IsFloat64 x && (Tag x == TagNull)

/-- `func (x *Box) IsPointer() bool`: the source tests only the Array
and Object tags. -/
def IsPointer (x : Box) : Bool :=
  !IsFloat64 x && ((Tag x == TagArray) || (Tag x == TagObject))

/-- `func (x *Box) ToPointer() uintptr`. -/
def ToPointer (x : Box) : Nat := Payload x

/-- Number of the seven type predicates that hold of a box; used to
state the disjointness property. -/
def truePreds (b : Box) : Nat :=
  (IsFloat64 b).toNat + (IsNumber b).toNat + (IsBool b).toNat +
    (IsString b).toNat + (IsArray b).toNat + (IsObject b).toNat +
    (IsNull b).toNat

/-- The payload is the value of the low 47 bits. -/
theorem Payload_eq_mod (x : Box) : Payload x = x % 2 ^ 47 := by
  have h : PayloadMask = 2 ^ 47 - 1 := by norm_num [PayloadMask]
  rw [Payload, h, Nat.and_pow_two_sub_one_eq_mod]

/-- The payload fits in 47 bits. -/
theorem Payload_lt (x : Box) : Payload x < 2 ^ 47 := by
  rw [Payload_eq_mod]; exact Nat.mod_lt _ (by norm_num)

/-- The tag is bits 47..50 of the raw pattern. -/
theorem Tag_eq_div_mod (x : Box) : Tag x = x / 2 ^ 47 % 2 ^ 4 := by
  have h : TagMask = 2 ^ 4 - 1 := by norm_num [TagMask]
  rw [Tag, h, Nat.and_pow_two_sub_one_eq_mod, TagShift, Nat.shiftRight_eq_div_pow]

/-- The tag fits in 4 bits. -/
theorem Tag_lt (x : Box) : Tag x < 2 ^ 4 := by
  rw [Tag_eq_div_mod]; exact Nat.mod_lt _ (by norm_num)

/-- A multiple of `2^k` or-ed with a value below `2^k` is their sum. -/
theorem lor_eq_add {k b : Nat} (a : Nat) (hb : b < 2 ^ k) :
    2 ^ k * a ||| b = 2 ^ k * a + b :=
  (Nat.mul_add_lt_is_or hb a).symm

/-- Or distributes out of a common power-of-two factor. -/
theorem mul_pow_lor (a b k : Nat) :
    a * 2 ^ k ||| b * 2 ^ k = (a ||| b) * 2 ^ k := by
  apply Nat.eq_of_testBit_eq
  intro i
  simp only [← Nat.shiftLeft_eq, Nat.testBit_or, Nat.testBit_shiftLeft, ge_iff_le]
  cases Decidable.em (k ≤ i) with
  | inl h => simp [h]
  | inr h => simp [h]

/-- An all-ones field absorbs anything below it under or. -/
theorem ones_lor_eq {n w : Nat} (hw : w < 2 ^ n) : 2 ^ n - 1 ||| w = 2 ^ n - 1 := by
  apply Nat.eq_of_testBit_eq
  intro i
  simp only [Nat.testBit_or, Nat.testBit_two_pow_sub_one]
  cases Decidable.em (i < n) with
  | inl h => simp [h]
  | inr h =>
    have hlt : w < 2 ^ i :=
      lt_of_lt_of_le hw (Nat.pow_le_pow_right (by norm_num) (Nat.le_of_not_lt h))
    simp [h, Nat.testBit_lt_two_pow hlt]

/-- Masking with an all-ones field at offset `k` extracts that field. -/
theorem land_ones_mul (f k m : Nat) :
    f &&& (2 ^ m - 1) * 2 ^ k = f / 2 ^ k % 2 ^ m * 2 ^ k := by
  apply Nat.eq_of_testBit_eq
  intro i
  rw [← Nat.shiftLeft_eq ((2:Nat) ^ m - 1) k, ← Nat.shiftLeft_eq, ← Nat.shiftRight_eq_div_pow]
  simp only [Nat.testBit_and, Nat.testBit_shiftLeft, Nat.testBit_two_pow_sub_one,
    Nat.testBit_mod_two_pow, Nat.testBit_shiftRight, ge_iff_le]
  cases Decidable.em (k ≤ i) with
  | inl h =>
    have hik : k + (i - k) = i := by omega
    simp [h, hik]
    cases Decidable.em (i - k < m) with
    | inl h2 => simp [h2]
    | inr h2 => simp [h2]
  | inr h => simp [h]

/-- Arithmetic reading of the bit-level NaN test. -/
theorem float64IsNaN_iff (v : Nat) :
    float64IsNaN v = true ↔ v / 2 ^ 52 % 2 ^ 11 = 2 ^ 11 - 1 ∧ v % 2 ^ 52 ≠ 0 := by
  have h1 : (0x7FF : Nat) = 2 ^ 11 - 1 := by norm_num
  have h2 : (0xFFFFFFFFFFFFF : Nat) = 2 ^ 52 - 1 := by norm_num
  rw [float64IsNaN, h1, h2, Nat.and_pow_two_sub_one_eq_mod, Nat.and_pow_two_sub_one_eq_mod,
    Nat.shiftRight_eq_div_pow]
  simp

/-- A box is reported as a plain float exactly when its pattern is not NaN. -/
theorem IsFloat64_eq_false_iff (x : Box) :
    IsFloat64 x = false ↔ float64IsNaN x = true := by
  simp [IsFloat64]

/-- The int32 bit pattern fits in 32 bits. -/
theorem int32bits_lt (n : Int) : int32bits n < 2 ^ 32 := by
  have h1 : (0:Int) ≤ n % 2 ^ 32 := Int.emod_nonneg n (by norm_num)
  have h2 : n % 2 ^ 32 < 2 ^ 32 := Int.emod_lt_of_pos n (by norm_num)
  rw [int32bits]
  omega

/-- Reading back the stored two's-complement bits recovers any in-range
int32 exactly. -/
theorem toInt32_int32bits (n : Int) (h1 : -(2 ^ 31) ≤ n) (h2 : n < 2 ^ 31) :
    toInt32 (int32bits n) = n := by
  have ha : (0:Int) ≤ n % 2 ^ 32 := Int.emod_nonneg n (by norm_num)
  have hb : n % 2 ^ 32 < 2 ^ 32 := Int.emod_lt_of_pos n (by norm_num)
  have hc : n % 2 ^ 32 = n - 2 ^ 32 * (n / 2 ^ 32) := Int.emod_def n (2 ^ 32)
  rw [toInt32, int32bits]
  split <;> omega

/-- Payload of a decomposed boxed pattern. -/
theorem Payload_boxed (c p : Nat) (hp : p < 2 ^ 47) :
    Payload (2 ^ 47 * c + p) = p := by
  rw [Payload_eq_mod]
  omega

/-- Tag of a decomposed boxed pattern. -/
theorem Tag_boxed (c p : Nat) (hp : p < 2 ^ 47) :
    Tag (2 ^ 47 * c + p) = c % 2 ^ 4 := by
  rw [Tag_eq_div_mod]
  omega

/-- A decomposed boxed pattern whose high 17 bits carry the NaN mask is
a NaN. -/
theorem isNaN_boxed (c p : Nat) (hp : p < 2 ^ 47) (h1 : c / 32 % 2048 = 2047)
    (h2 : c % 32 ≠ 0) : float64IsNaN (2 ^ 47 * c + p) = true := by
  rw [float64IsNaN_iff]
  constructor
  · omega
  · omega

/-- A decomposed boxed pattern is never reported as a plain float. -/
theorem IsFloat64_boxed (c p : Nat) (hp : p < 2 ^ 47) (h1 : c / 32 % 2048 = 2047)
    (h2 : c % 32 ≠ 0) : IsFloat64 (2 ^ 47 * c + p) = false := by
  rw [IsFloat64_eq_false_iff]
  exact isNaN_boxed c p hp h1 h2

/-- Shared decomposition of the constructors: NaN mask, shifted tag and
masked payload sum to `2^47 * c + payload`. -/
theorem box_decomp (tc c q : Nat) (hc : NaNMask ||| tc <<< TagShift = 2 ^ 47 * c) :
    NaNMask ||| tc <<< TagShift ||| (q &&& PayloadMask) = 2 ^ 47 * c + q % 2 ^ 47 := by
  have h : PayloadMask = 2 ^ 47 - 1 := by norm_num [PayloadMask]
  rw [h, Nat.and_pow_two_sub_one_eq_mod, hc, lor_eq_add _ (Nat.mod_lt _ (by norm_num))]

/-- Normal form of `NewNumber`. -/
theorem NewNumber_eq (n : Int) : NewNumber n = 2 ^ 47 * 0xFFF1 + int32bits n := by
  have h := box_decomp TagNumber 0xFFF1 (int32bits n) (by decide)
  rw [NewNumber, h, Nat.mod_eq_of_lt (lt_trans (int32bits_lt n) (by norm_num))]

/-- Normal form of `NewString`. -/
theorem NewString_eq (addr : Nat) : NewString addr = 2 ^ 47 * 0xFFF2 + addr % 2 ^ 47 := by
  have h := box_decomp tagString 0xFFF2 addr (by decide)
  rw [NewString, h]

/-- Normal form of `NewArray`. -/
theorem NewArray_eq (addr : Nat) : NewArray addr = 2 ^ 47 * 0xFFF4 + addr % 2 ^ 47 := by
  have h := box_decomp TagArray 0xFFF4 addr (by decide)
  rw [NewArray, h]

/-- Normal form of `NewObject`. -/
theorem NewObject_eq (addr : Nat) : NewObject addr = 2 ^ 47 * 0xFFF5 + addr % 2 ^ 47 := by
  have h := box_decomp TagObject 0xFFF5 addr (by decide)
  rw [NewObject, h]

/-- Normal form of `NewBool`. -/
theorem NewBool_eq (b : Bool) :
    NewBool b = 2 ^ 47 * 0xFFF3 + (if b then 1 else 0) := by
  cases b <;> decide

/-- Normal form of `NewNull`. -/
theorem NewNull_eq : NewNull = 2 ^ 47 * 0xFFFF := by decide

/-- Normal form of `SetTag`: the wrapped shift keeps the low 17 bits of
the tag argument in the high field, on top of the NaN mask. -/
theorem SetTag_eq (x : Box) (t : Nat) :
    SetTag x t = 2 ^ 47 * (0xFFF0 ||| t % 2 ^ 17) + Payload x := by
  have hu : t <<< TagShift % 2 ^ 64 = t % 2 ^ 17 * 2 ^ 47 := by
    rw [TagShift, Nat.shiftLeft_eq]
    omega
  have hmask : NaNMask = 0xFFF0 * 2 ^ 47 := by norm_num [NaNMask]
  have hp : Payload x &&& PayloadMask = Payload x := by
    have h : PayloadMask = 2 ^ 47 - 1 := by norm_num [PayloadMask]
    rw [h, Nat.and_pow_two_sub_one_of_lt_two_pow (Payload_lt x)]
  rw [SetTag, hp, hu, hmask, mul_pow_lor, Nat.mul_comm, lor_eq_add _ (Payload_lt x)]

/-- High-field coefficient facts for `SetTag`: its low 4 bits are the
requested tag modulo 16, and it always carries the NaN mask. -/
theorem settag_coeff (t : Nat) :
    (0xFFF0 ||| t % 2 ^ 17) % 2 ^ 4 = t % 2 ^ 4 ∧
    (0xFFF0 ||| t % 2 ^ 17) % 32 ≠ 0 ∧
    (0xFFF0 ||| t % 2 ^ 17) / 32 % 2048 = 2047 := by
  have hsplit : t % 2 ^ 17 = 2 ^ 4 * (t % 2 ^ 17 / 2 ^ 4) ||| t % 2 ^ 17 % 2 ^ 4 := by
    rw [lor_eq_add _ (Nat.mod_lt _ (by norm_num))]
    omega
  have hdec : (0xFFF0 : Nat) ||| t % 2 ^ 17
      = 2 ^ 4 * (0xFFF ||| t % 2 ^ 17 / 2 ^ 4) + t % 2 ^ 17 % 2 ^ 4 := by
    conv_lhs => rw [hsplit]
    rw [← Nat.or_assoc]
    have h1 : (0xFFF0 : Nat) ||| 2 ^ 4 * (t % 2 ^ 17 / 2 ^ 4)
        = 2 ^ 4 * (0xFFF ||| t % 2 ^ 17 / 2 ^ 4) := by
      have h0 : (0xFFF0 : Nat) = 0xFFF * 2 ^ 4 := by norm_num
      rw [h0, Nat.mul_comm (2 ^ 4) (t % 2 ^ 17 / 2 ^ 4), mul_pow_lor, Nat.mul_comm]
    rw [h1, lor_eq_add _ (Nat.mod_lt _ (by norm_num))]
  have hodd : ((0xFFF : Nat) ||| t % 2 ^ 17 / 2 ^ 4) % 2 = 1 := by
    rw [Nat.or_mod_two_eq_one]
    left
    norm_num
  have hhalf : ((0xFFF : Nat) ||| t % 2 ^ 17 / 2 ^ 4) / 2 % 2048 = 2047 := by
    rw [Nat.or_div_two]
    have h7 : (0xFFF : Nat) / 2 = 2 ^ 11 - 1 := by norm_num
    have h2048 : (2048 : Nat) = 2 ^ 11 := by norm_num
    rw [h7, h2048, ← Nat.and_pow_two_sub_one_eq_mod, Nat.and_distrib_right]
    have ha : (2 ^ 11 - 1 : Nat) &&& 2 ^ 11 - 1 = 2 ^ 11 - 1 := by decide
    rw [ha, Nat.and_pow_two_sub_one_eq_mod]
    exact ones_lor_eq (Nat.mod_lt _ (by norm_num))
  refine ⟨?_, ?_, ?_⟩
  · rw [hdec]
    omega
  · rw [hdec]
    omega
  · rw [hdec]
    omega

/-- Normal form of `SetPayload`: the NaN mask plus the existing tag in
the high field, with the new payload below. -/
theorem SetPayload_eq (x : Box) (u : Nat) :
    SetPayload x u = 2 ^ 47 * (0xFFF0 + Tag x) + u % 2 ^ 47 := by
  have hc : NaNMask ||| Tag x <<< TagShift = 2 ^ 47 * (0xFFF0 + Tag x) := by
    have hm : NaNMask = 0xFFF0 * 2 ^ 47 := by norm_num [NaNMask]
    have ht : Tag x <<< TagShift = Tag x * 2 ^ 47 := by rw [TagShift, Nat.shiftLeft_eq]
    rw [hm, ht, mul_pow_lor]
    have h4 : (0xFFF0 : Nat) ||| Tag x = 0xFFF0 + Tag x := by
      have h0 : (0xFFF0 : Nat) = 2 ^ 4 * 0xFFF := by norm_num
      rw [h0, lor_eq_add _ (Tag_lt x)]
    rw [h4, Nat.mul_comm]
  rw [SetPayload]
  exact box_decomp (Tag x) (0xFFF0 + Tag x) u hc

/-- `SetTag` never changes the payload bits. -/
theorem Payload_SetTag (x : Box) (t : Nat) : Payload (SetTag x t) = Payload x := by
  rw [SetTag_eq, Payload_boxed _ _ (Payload_lt x)]

/-- The tag written by `SetTag` is the argument reduced modulo 16. -/
theorem Tag_SetTag (x : Box) (t : Nat) : Tag (SetTag x t) = t % 2 ^ 4 := by
  rw [SetTag_eq, Tag_boxed _ _ (Payload_lt x)]
  exact (settag_coeff t).1

/-- `SetTag` always re-asserts the NaN mask. -/
theorem IsFloat64_SetTag (x : Box) (t : Nat) : IsFloat64 (SetTag x t) = false := by
  rw [SetTag_eq]
  exact IsFloat64_boxed _ _ (Payload_lt x) (settag_coeff t).2.2 (settag_coeff t).2.1

/-- `SetPayload` never changes the tag bits. -/
theorem Tag_SetPayload (x : Box) (u : Nat) : Tag (SetPayload x u) = Tag x := by
  rw [SetPayload_eq, Tag_boxed _ _ (Nat.mod_lt _ (by norm_num))]
  have h := Tag_lt x
  omega

/-- The payload written by `SetPayload` is the argument's low 47 bits. -/
theorem Payload_SetPayload (x : Box) (u : Nat) :
    Payload (SetPayload x u) = u % 2 ^ 47 := by
  rw [SetPayload_eq, Payload_boxed _ _ (Nat.mod_lt _ (by norm_num))]

/-- `SetPayload` always re-asserts the NaN mask. -/
theorem IsFloat64_SetPayload (x : Box) (u : Nat) :
    IsFloat64 (SetPayload x u) = false := by
  rw [SetPayload_eq]
  have h := Tag_lt x
  refine IsFloat64_boxed _ _ (Nat.mod_lt _ (by norm_num)) ?_ ?_
  · omega
  · omega

/-- Predicate count of a boxed (non-float) pattern in terms of its tag. -/
theorem truePreds_of_tag (x : Box) (tg : Nat) (hF : IsFloat64 x = false)
    (hT : Tag x = tg) :
    truePreds x = (tg == TagNumber).toNat + (tg == TagBool).toNat +
      (tg == tagString).toNat + (tg == TagArray).toNat +
      (tg == TagObject).toNat + (tg == TagNull).toNat := by
  rw [truePreds, IsNumber, IsBool, IsString, IsArray, IsObject, IsNull, hF, hT]
  simp

/-- C1: for every int32 `n` (including the extremes), `ToNumber`
recovers `n` from `NewNumber n`, `IsNumber` holds, `IsFloat64` fails,
and the payload is the plain two's-complement 32-bit copy of `n` (no
sign extension into the upper payload bits). -/
theorem C1_number_roundtrip (n : Int) (h1 : -(2 ^ 31) ≤ n) (h2 : n < 2 ^ 31) :
    ToNumber (NewNumber n) = n ∧ IsNumber (NewNumber n) = true ∧
    IsFloat64 (NewNumber n) = false ∧ Payload (NewNumber n) = int32bits n := by
  have hp : int32bits n < 2 ^ 47 := lt_trans (int32bits_lt n) (by norm_num)
  have hP : Payload (NewNumber n) = int32bits n := by
    rw [NewNumber_eq, Payload_boxed _ _ hp]
  have hT : Tag (NewNumber n) = 1 := by
    rw [NewNumber_eq, Tag_boxed _ _ hp]
    norm_num
  have hF : IsFloat64 (NewNumber n) = false := by
    rw [NewNumber_eq]
    exact IsFloat64_boxed _ _ hp (by norm_num) (by norm_num)
  refine ⟨?_, ?_, hF, hP⟩
  · rw [ToNumber, hP]
    exact toInt32_int32bits n h1 h2
  · rw [IsNumber, hF, hT]
    rfl

/-- Witness for C1 at the two int32 extremes. -/
theorem C1_witness :
    ToNumber (NewNumber (-2147483648)) = -2147483648 ∧
    ToNumber (NewNumber 2147483647) = 2147483647 ∧
    IsNumber (NewNumber (-2147483648)) = true ∧
    IsFloat64 (NewNumber (-2147483648)) = false := by
  have hmin := C1_number_roundtrip (-2147483648) (by norm_num) (by norm_num)
  have hmax := C1_number_roundtrip 2147483647 (by norm_num) (by norm_num)
  exact ⟨hmin.1, hmax.1, hmin.2.1, hmin.2.2.1⟩

/-- C2 counterexample: a string box is tagged `tagString` and is not a
float, yet `IsPointer` rejects it, contradicting the claim that the
reference predicate is true for String. -/
theorem C2_counterexample :
    IsFloat64 (NewString 4096) = false ∧ Tag (NewString 4096) = tagString ∧
    IsPointer (NewString 4096) = false := by decide

/-- C2 (amended): `IsPointer` is true exactly for boxed values tagged
Array or Object; string boxes are excluded, so `IsPointer` of
`NewString` is false for every address. -/
theorem C2_is_pointer_arrays_objects (b : Box) (addr : Nat) :
    IsPointer b = (!IsFloat64 b && ((Tag b == TagArray) || (Tag b == TagObject))) ∧
    IsPointer (NewString addr) = false := by
  constructor
  · rfl
  · have hT : Tag (NewString addr) = 2 := by
      rw [NewString_eq, Tag_boxed _ _ (Nat.mod_lt _ (by norm_num))]
      norm_num
    rw [IsPointer, hT]
    exact Bool.and_false _

/-- C3: `SetTag` preserves the 47 payload bits, `SetPayload` preserves
the 4 tag bits, both re-assert the NaN mask (the result is never a
plain float), and on a Number box a `SetTag` round trip through the
String tag restores the original `ToNumber` value. -/
theorem C3_mutators_preserve (b : Box) (t u : Nat) (n : Int)
    (h1 : -(2 ^ 31) ≤ n) (h2 : n < 2 ^ 31) :
    Payload (SetTag b t) = Payload b ∧ IsFloat64 (SetTag b t) = false ∧
    Tag (SetPayload b u) = Tag b ∧ IsFloat64 (SetPayload b u) = false ∧
    Tag (SetTag (NewNumber n) tagString) = tagString ∧
    Payload (SetTag (NewNumber n) tagString) = Payload (NewNumber n) ∧
    ToNumber (SetTag (SetTag (NewNumber n) tagString) TagNumber) = n := by
  refine ⟨Payload_SetTag b t, IsFloat64_SetTag b t, Tag_SetPayload b u,
    IsFloat64_SetPayload b u, ?_, Payload_SetTag _ _, ?_⟩
  · rw [Tag_SetTag]
    rfl
  · have hp : int32bits n < 2 ^ 47 := lt_trans (int32bits_lt n) (by norm_num)
    rw [ToNumber, Payload_SetTag, Payload_SetTag, NewNumber_eq, Payload_boxed _ _ hp]
    exact toInt32_int32bits n h1 h2

/-- Witness for C3 at concrete inputs. -/
theorem C3_witness :
    Payload (SetTag 12345 7) = Payload 12345 ∧
    ToNumber (SetTag (SetTag (NewNumber (-5)) tagString) TagNumber) = -5 := by
  have h := C3_mutators_preserve 12345 7 0 (-5) (by norm_num) (by norm_num)
  exact ⟨h.1, h.2.2.2.2.2.2⟩

/-- C4: every constructor output satisfies exactly one of the seven
type predicates (`NewFloat` restricted to non-NaN inputs). -/
theorem C4_exactly_one (f : Nat) (n : Int) (b : Bool) (s a o : Nat)
    (hf : float64IsNaN f = false) :
    truePreds (NewFloat f) = 1 ∧ truePreds (NewNumber n) = 1 ∧
    truePreds (NewBool b) = 1 ∧ truePreds (NewString s) = 1 ∧
    truePreds (NewArray a) = 1 ∧ truePreds (NewObject o) = 1 ∧
    truePreds NewNull = 1 := by
  have hff : IsFloat64 (NewFloat f) = true := by
    rw [IsFloat64, NewFloat, hf]
    rfl
  refine ⟨?_, ?_, ?_, ?_, ?_, ?_, by decide⟩
  · simp [truePreds, IsNumber, IsBool, IsString, IsArray, IsObject, IsNull, hff]
  · have hp : int32bits n < 2 ^ 47 := lt_trans (int32bits_lt n) (by norm_num)
    have hF : IsFloat64 (NewNumber n) = false := by
      rw [NewNumber_eq]
      exact IsFloat64_boxed _ _ hp (by norm_num) (by norm_num)
    have hT : Tag (NewNumber n) = 1 := by
      rw [NewNumber_eq, Tag_boxed _ _ hp]
      norm_num
    rw [truePreds_of_tag _ 1 hF hT]
    decide
  · cases b <;> decide
  · have hF : IsFloat64 (NewString s) = false := by
      rw [NewString_eq]
      exact IsFloat64_boxed _ _ (Nat.mod_lt _ (by norm_num)) (by norm_num) (by norm_num)
    have hT : Tag (NewString s) = 2 := by
      rw [NewString_eq, Tag_boxed _ _ (Nat.mod_lt _ (by norm_num))]
      norm_num
    rw [truePreds_of_tag _ 2 hF hT]
    decide
  · have hF : IsFloat64 (NewArray a) = false := by
      rw [NewArray_eq]
      exact IsFloat64_boxed _ _ (Nat.mod_lt _ (by norm_num)) (by norm_num) (by norm_num)
    have hT : Tag (NewArray a) = 4 := by
      rw [NewArray_eq, Tag_boxed _ _ (Nat.mod_lt _ (by norm_num))]
      norm_num
    rw [truePreds_of_tag _ 4 hF hT]
    decide
  · have hF : IsFloat64 (NewObject o) = false := by
      rw [NewObject_eq]
      exact IsFloat64_boxed _ _ (Nat.mod_lt _ (by norm_num)) (by norm_num) (by norm_num)
    have hT : Tag (NewObject o) = 5 := by
      rw [NewObject_eq, Tag_boxed _ _ (Nat.mod_lt _ (by norm_num))]
      norm_num
    rw [truePreds_of_tag _ 5 hF hT]
    decide

/-- Witness for C4 at concrete inputs. -/
theorem C4_witness :
    float64IsNaN 0 = false ∧ truePreds (NewFloat 0) = 1 ∧
    truePreds (NewNumber 3) = 1 ∧ truePreds NewNull = 1 := by
  have h := C4_exactly_one 0 3 true 0 0 0 (by decide)
  exact ⟨by decide, h.1, h.2.1, h.2.2.2.2.2.2⟩

/-- C5 counterexample: the signaling NaN pattern `0x7FF0000000000001`
does not carry the boxed quiet-NaN mask, yet `IsFloat64` still reports
false on it, so the claimed exception set is too small. -/
theorem C5_counterexample :
    IsFloat64 (NewFloat 0x7FF0000000000001) = false ∧
    0x7FF0000000000001 &&& NaNMask ≠ NaNMask := by decide

/-- C5 (amended): `NewFloat` is an identity reinterpretation, and
`IsFloat64` of the result is true exactly when the input is not a NaN
bit pattern; in particular every pattern carrying the NaN mask (all
boxed encodings) yields false, but so does any other NaN. -/
theorem C5_new_float_identity (f : Nat) :
    NewFloat f = f ∧ (IsFloat64 (NewFloat f) = true ↔ float64IsNaN f = false) ∧
    (f &&& NaNMask = NaNMask → IsFloat64 (NewFloat f) = false) := by
  refine ⟨rfl, ?_, ?_⟩
  · simp [IsFloat64, NewFloat]
  · intro h
    rw [NewFloat, IsFloat64_eq_false_iff, float64IsNaN_iff]
    have hm : NaNMask = (2 ^ 12 - 1) * 2 ^ 51 := by norm_num [NaNMask]
    rw [hm, land_ones_mul] at h
    have h51 : f / 2 ^ 51 % 2 ^ 12 = 2 ^ 12 - 1 := by omega
    constructor
    · omega
    · omega

/-- Witness for C5 on a boxed-shaped quiet NaN. -/
theorem C5_witness : IsFloat64 (NewFloat 0x7FF8800000000000) = false :=
  (C5_new_float_identity 0x7FF8800000000000).2.2 (by decide)

/-- C6: boolean round trip; both boolean boxes are NaN-boxed and carry
the Bool tag. -/
theorem C6_bool_roundtrip :
    ToBool (NewBool true) = true ∧ ToBool (NewBool false) = false ∧
    IsFloat64 (NewBool true) = false ∧ IsFloat64 (NewBool false) = false ∧
    Tag (NewBool true) = TagBool ∧ Tag (NewBool false) = TagBool := by decide

/-- C7: the null box satisfies `IsNull`, carries tag `TagNull`, and has
payload exactly zero. -/
theorem C7_null_box :
    IsNull NewNull = true ∧ Payload NewNull = 0 ∧ Tag NewNull = TagNull := by
  decide

/-- C8: unboxing a live array or object reference returns the referent
stored at the boxed address (reference identity is modelled by the heap
address), and the example entries round-trip as Number boxes. -/
theorem C8_reference_roundtrip (heapA : Nat → Option (List Box))
    (heapO : Nat → Option (List (String × Box)))
    (aaddr oaddr : Nat) (a : List Box) (o : List (String × Box))
    (ha47 : aaddr < 2 ^ 47) (ho47 : oaddr < 2 ^ 47)
    (ha : heapA aaddr = some a) (ho : heapO oaddr = some o) :
    ToArray heapA (NewArray aaddr) = some a ∧
    ToObject heapO (NewObject oaddr) = some o ∧
    ToNumber (NewNumber 1) = 1 ∧ ToNumber (NewNumber 2) = 2 := by
  have hA : Payload (NewArray aaddr) = aaddr := by
    rw [NewArray_eq, Payload_boxed _ _ (Nat.mod_lt _ (by norm_num)),
      Nat.mod_eq_of_lt ha47]
  have hO : Payload (NewObject oaddr) = oaddr := by
    rw [NewObject_eq, Payload_boxed _ _ (Nat.mod_lt _ (by norm_num)),
      Nat.mod_eq_of_lt ho47]
  refine ⟨?_, ?_, by decide, by decide⟩
  · rw [ToArray, hA, ha]
  · rw [ToObject, hO, ho]

/-- Witness for C8 with concrete two-entry heaps. -/
theorem C8_witness :
    ToObject
      (fun ad => if ad = 4096 then
        some [("key1", NewNumber 1), ("key2", NewNumber 2)] else none)
      (NewObject 4096) = some [("key1", NewNumber 1), ("key2", NewNumber 2)] ∧
    ToArray (fun ad => if ad = 8192 then some [NewNumber 7] else none)
      (NewArray 8192) = some [NewNumber 7] := by
  have h := C8_reference_roundtrip
    (fun ad => if ad = 8192 then some [NewNumber 7] else none)
    (fun ad => if ad = 4096 then
      some [("key1", NewNumber 1), ("key2", NewNumber 2)] else none)
    8192 4096 [NewNumber 7] [("key1", NewNumber 1), ("key2", NewNumber 2)]
    (by norm_num) (by norm_num) (by simp) (by simp)
  exact ⟨h.2.1, h.1⟩

/-- C9: `SetTag` performs no range check: for any tag argument `t`, the
resulting tag is `t` modulo 16 and the box stays NaN-boxed. -/
theorem C9_settag_unchecked (b : Box) (t : Nat) :
    Tag (SetTag b t) = t % 16 ∧ IsFloat64 (SetTag b t) = false := by
  have h16 : (16 : Nat) = 2 ^ 4 := by norm_num
  exact ⟨by rw [Tag_SetTag, h16], IsFloat64_SetTag b t⟩

/-- C10: `ToBool` tests the whole 47-bit payload against zero, not the
low bit; after `SetPayload` with 2 on a Bool box, `ToBool` is true even
though the low payload bit is 0, and the box is still a Bool box. -/
theorem C10_tobool_whole_payload (b : Box) :
    (ToBool b = true ↔ Payload b ≠ 0) ∧
    ToBool (SetPayload (NewBool true) 2) = true ∧
    Payload (SetPayload (NewBool true) 2) % 2 = 0 ∧
    IsBool (SetPayload (NewBool true) 2) = true := by
  refine ⟨?_, by decide, by decide, by decide⟩
  rw [ToBool]
  simp only [Bool.not_eq_true', beq_eq_false_iff_ne, ne_eq]
  omega

end Nanboxing
